import Mathlib

/-!
EC matrix shell commands (`drivers/kscan/ec_matrix_shell.c`).

A shallow embedding of the shell extension: the device table
`matrix_hdl_list`, the lookup `get_matrix`, the calibration event sink
`calibrate_cb`, the four command handlers and the command tables.

Conventions of the embedding.

* A C string is the list of its bytes before the terminating NUL
  (`IsCStr`: every byte is in `1..255`).  `cstr` turns an ASCII literal into
  such a list.
* A pointer to a `struct device` is `Option device`, `none` being `NULL`.
* A pointer `&matrix_hdl_list[i]` is the index `i`.
* Operations on the shell, `k_sleep` and the calls into the driver are
  recorded, in program order, as a list of `Effect`s.
* A run that dereferences `NULL`, indexes outside an array or reaches
  `__ASSERT_NO_MSG(false)` ends in the corresponding `Fault`.
-/

namespace EcMatrixShell

/-! ## C strings -/

/-- Bytes of an ASCII literal, without the terminating NUL. -/
def cstr (s : String) : List Nat := s.toList.map Char.toNat

/-- A list of bytes is the content of a C string when no byte is NUL and
every byte fits in an `unsigned char`. -/
def IsCStr (s : List Nat) : Prop := ∀ b ∈ s, 0 < b ∧ b < 256

instance (s : List Nat) : Decidable (IsCStr s) := by
  unfold IsCStr; infer_instance

/-- The C library `strcmp`: walks both strings while the bytes agree and
returns the difference of the first pair of bytes that differ (the end of a
list is the NUL byte), `0` when both end together. -/
def strcmp : List Nat → List Nat → Int
  | [], [] => 0
  | [], b :: _ => 0 - (b : Int)
  | a :: _, [] => (a : Int) - 0
  | a :: as, b :: bs => if a = b then strcmp as bs else (a : Int) - (b : Int)

/-! ## Device table -/

/-- The part of Zephyr's `struct device` the shell looks at: its `name`;
`handle` stands for the identity of the device object that the driver
functions receive. -/
structure device where
  name : List Nat
  handle : Nat
deriving DecidableEq, Repr

/-- `struct matrix_hdl`: one slot of the table, `dev = none` is `NULL`. -/
structure matrix_hdl where
  dev : Option device
deriving DecidableEq, Repr

/-- `EC_MATRIX_ENTRY(dev_)`. -/
def EC_MATRIX_ENTRY (dev_ : Option device) : matrix_hdl := { dev := dev_ }

/-- `INIT_MACRO()`: the enabled devicetree instances in declaration order,
followed by `NULL`. -/
def INIT_MACRO (dt : List device) : List (Option device) := dt.map some ++ [none]

/-- `matrix_hdl_list[]`: `FOR_EACH(EC_MATRIX_ENTRY, (, ), INIT_MACRO())`.
The parameter `dt` is the list of enabled devicetree instances. -/
def matrix_hdl_list (dt : List device) : List matrix_hdl := (INIT_MACRO dt).map EC_MATRIX_ENTRY

/-- `ARRAY_SIZE(matrix_hdl_list)`. -/
def ARRAY_SIZE (dt : List device) : Nat := (matrix_hdl_list dt).length

/-- How a run can leave the defined behaviour of the program. -/
inductive Fault where
  | nullDeref
  | outOfBounds
  | divByZero
  | assertFailed
deriving DecidableEq, Repr

/-- A run either returns a value or ends in a fault. -/
inductive Run (α : Type) where
  | ok (a : α)
  | fault (f : Fault)
deriving DecidableEq, Repr

/-- Outcome of a table access: the slots that were read, in order, and either
a value or the fault that ended the run. -/
structure Access (α : Type) where
  reads : List Nat
  result : Run α
deriving DecidableEq

/-- The `for` loop of `get_matrix`, from index `i` over the slots that are
left: slot `i` is read, its `dev->name` compared with the label; falling off
the end of the array reaches `__ASSERT_NO_MSG(false)`. -/
def get_matrix_loop (device_label : List Nat) : List matrix_hdl → Nat → Access Nat
  | [], _ => { reads := [], result := .fault .assertFailed }
  | e :: rest, i =>
    match e.dev with
    | none => { reads := [i], result := .fault .nullDeref }
    | some d =>
      if strcmp device_label d.name = 0 then
        { reads := [i], result := .ok i }
      else
        let r := get_matrix_loop device_label rest (i + 1)
        { reads := i :: r.reads, result := r.result }

/-- `get_matrix(device_label)`: the loop runs over all `ARRAY_SIZE` slots. -/
def get_matrix (dt : List device) (device_label : List Nat) : Access Nat :=
  get_matrix_loop device_label (matrix_hdl_list dt) 0

/-- Names of the configured devices are pairwise distinct C strings. -/
def WellFormed (dt : List device) : Prop :=
  (∀ d ∈ dt, IsCStr d.name) ∧ (dt.map device.name).Nodup

instance (dt : List device) : Decidable (WellFormed dt) := by
  unfold WellFormed; infer_instance

/-! ## Build configuration -/

/-- The Kconfig options the translation unit depends on. -/
structure Kconfig where
  SHELL_PROMPT_UART : String
  SETTINGS : Bool
  ZMK_KSCAN_EC_MATRIX_SETTINGS : Bool
  ZMK_KSCAN_EC_MATRIX_SCAN_RATE_CALC : Bool
deriving DecidableEq, Repr

/-! ## Calibration events and the effects of the shell code -/

/-- Modelled from the spec: `struct zmk_kscan_ec_matrix_calibration_event`
of `zmk_kscan_ec_matrix.h`, which is not part of the sources at hand.  The
five variants are the five `case` labels of `calibrate_cb`, the payload
fields are those named in its commented-out print statements. -/
inductive calibration_event where
  | CALIBRATION_EV_LOW_SAMPLING_START
  | CALIBRATION_EV_HIGH_SAMPLING_START
  | CALIBRATION_EV_POSITION_LOW_DETERMINED (strobe input low_avg noise : Nat)
  | CALIBRATION_EV_POSITION_COMPLETE (strobe input low_avg high_avg noise snr : Nat)
  | CALIBRATION_EV_COMPLETE
deriving DecidableEq, Repr

/-- One observable step of the shell code, in program order. `shell_print`
and `shell_info` write their message followed by a newline, `shell_fprintf`
writes its message as it is; `k_sleep` carries the delay in milliseconds; the
last four are the calls into the driver and the settings code. -/
inductive Effect where
  | shell_prompt_change (prompt : String)
  | shell_print (msg : String)
  | shell_fprintf (msg : String)
  | shell_info (msg : String)
  | k_sleep (ms : Nat)
  | zmk_kscan_ec_matrix_calibrate (dev : device)
  | zmk_kscan_ec_matrix_settings_save_calibration (dev : device)
  | zmk_kscan_ec_matrix_settings_load_calibration (dev : device)
  | zmk_kscan_ec_matrix_max_scan_duration_ns (dev : device)
deriving DecidableEq, Repr

/-- `K_SECONDS(s)` in milliseconds. -/
def K_SECONDS (s : Nat) : Nat := s * 1000

/-- `calibrate_cb(ev, user_data)`: the `switch` on `ev->type`. -/
def calibrate_cb (cfg : Kconfig) : calibration_event → List Effect
  | .CALIBRATION_EV_LOW_SAMPLING_START =>
    [ .shell_prompt_change "-",
      .shell_print "Low value sampling begins. Please do not press any keys",
      .k_sleep (K_SECONDS 1) ]
  | .CALIBRATION_EV_HIGH_SAMPLING_START =>
    [ .shell_prompt_change "-",
      .shell_print "\nHigh value sampling begins. Please slowly press each key in sequence, releasing once an asterisk appears" ]
  | .CALIBRATION_EV_POSITION_LOW_DETERMINED _ _ _ _ =>
    [ .shell_fprintf "*" ]
  | .CALIBRATION_EV_POSITION_COMPLETE _ _ _ _ _ _ =>
    [ .shell_fprintf "*" ]
  | .CALIBRATION_EV_COMPLETE =>
    [ .shell_prompt_change cfg.SHELL_PROMPT_UART,
      .shell_print "\nCalibration complete!" ]

/-- The driver delivers a sequence of events to the sink, one call each. -/
def deliver (cfg : Kconfig) (evs : List calibration_event) : List Effect :=
  evs.flatMap (calibrate_cb cfg)

/-! ## Reading a trace -/

/-- The prompt shown after a trace, starting from prompt `p`. -/
def prompt_after (p : String) : List Effect → String
  | [] => p
  | .shell_prompt_change q :: tr => prompt_after q tr
  | _ :: tr => prompt_after p tr

/-- The arguments of the `shell_prompt_change` calls of a trace, in order. -/
def prompt_calls : List Effect → List String
  | [] => []
  | .shell_prompt_change q :: tr => q :: prompt_calls tr
  | _ :: tr => prompt_calls tr

/-- The successive new values of the prompt along a trace that starts with
prompt `p`: a `shell_prompt_change` to the prompt already shown is no change
of value. -/
def prompt_transitions (p : String) : List Effect → List String
  | [] => []
  | .shell_prompt_change q :: tr =>
    if q = p then prompt_transitions p tr else q :: prompt_transitions q tr
  | _ :: tr => prompt_transitions p tr

/-- The characters a step writes to the console. -/
def Effect.text : Effect → List Char
  | .shell_print msg => msg.toList ++ ['\n']
  | .shell_info msg => msg.toList ++ ['\n']
  | .shell_fprintf msg => msg.toList
  | _ => []

/-- The characters a trace writes to the console. -/
def console_text (tr : List Effect) : List Char := tr.flatMap Effect.text

/-- Total time a trace blocks in `k_sleep`, in milliseconds. -/
def blocked_ms : List Effect → Nat
  | [] => 0
  | .k_sleep ms :: tr => ms + blocked_ms tr
  | _ :: tr => blocked_ms tr

/-- The calls into the driver and the settings code of a trace. -/
def collaborator_calls (tr : List Effect) : List Effect :=
  tr.filter fun e =>
    match e with
    | .zmk_kscan_ec_matrix_calibrate _ => true
    | .zmk_kscan_ec_matrix_settings_save_calibration _ => true
    | .zmk_kscan_ec_matrix_settings_load_calibration _ => true
    | .zmk_kscan_ec_matrix_max_scan_duration_ns _ => true
    | _ => false

/-- Whether the sink calls `shell_prompt_change` on this event. -/
def sets_prompt : calibration_event → Bool
  | .CALIBRATION_EV_LOW_SAMPLING_START => true
  | .CALIBRATION_EV_HIGH_SAMPLING_START => true
  | .CALIBRATION_EV_COMPLETE => true
  | _ => false

/-! ## Command handlers -/

/-- Conversion `%d` of the shell's formatted print. -/
def fmt_d (v : Int) : String :=
  if v < 0 then "-" ++ Nat.repr v.natAbs else Nat.repr v.natAbs

/-- Conversion `%llu` of the shell's formatted print. -/
def fmt_llu (v : Nat) : String := Nat.repr v

/-- Unsigned 64-bit division; a zero divisor is a fault. -/
def udiv64 (a b : Nat) : Run Nat :=
  if b % 2 ^ 64 = 0 then .fault .divByZero else .ok ((a % 2 ^ 64) / (b % 2 ^ 64))

/-- The argument vector a handler receives: the shell keeps all tokens of the
command line in one array and hands the handler a pointer to the token of its
own command, which is `tokens[base]`; `argv[off]` is `tokens[base + off]`. -/
structure Argv where
  tokens : List (List Nat)
  base : Nat
deriving DecidableEq, Repr

/-- The token `argv[off]`. -/
def Argv.get (argv : Argv) (off : Int) : Run (List Nat) :=
  let k : Int := (argv.base : Int) + off
  if k < 0 then .fault .outOfBounds
  else
    match argv.tokens[k.toNat]? with
    | some t => .ok t
    | none => .fault .outOfBounds

/-- Modelled from the spec: the collaborators declared in
`zmk_kscan_ec_matrix.h` and `ec_matrix_settings.h`, which are not part of the
sources at hand.  `calibrate` delivers events to the sink and returns an
`int`; save and load return an `int`; the scan duration is a `uint64_t`. -/
structure Driver where
  zmk_kscan_ec_matrix_calibrate : device → List calibration_event × Int
  zmk_kscan_ec_matrix_settings_save_calibration : device → Int
  zmk_kscan_ec_matrix_settings_load_calibration : device → Int
  zmk_kscan_ec_matrix_max_scan_duration_ns : device → Nat

/-- The expression `get_matrix(argv[off])->dev`, as the driver functions
receive and dereference it. -/
def matrix_dev (dt : List device) (argv : Argv) (off : Int) : Run device :=
  match argv.get off with
  | .fault f => .fault f
  | .ok device_label =>
    match (get_matrix dt device_label).result with
    | .fault f => .fault f
    | .ok i =>
      match (matrix_hdl_list dt)[i]? with
      | none => .fault .outOfBounds
      | some matrix =>
        match matrix.dev with
        | none => .fault .nullDeref
        | some dev => .ok dev

/-- `cmd_matrix_calibration_start`: trace and return value. -/
def cmd_matrix_calibration_start (cfg : Kconfig) (dt : List device) (drv : Driver)
    (argv : Argv) : Run (List Effect × Int) :=
  match matrix_dev dt argv (-2) with
  | .fault f => .fault f
  | .ok dev =>
    let r := drv.zmk_kscan_ec_matrix_calibrate dev
    let ret := r.2
    .ok ([.zmk_kscan_ec_matrix_calibrate dev] ++ deliver cfg r.1 ++
          (if ret < 0 then
            [.shell_print ("Failed to start calibration (" ++ fmt_d ret ++ ")")]
           else []),
         ret)

/-- `cmd_matrix_scan_rate`: trace and return value. -/
def cmd_matrix_scan_rate (dt : List device) (drv : Driver) (argv : Argv) :
    Run (List Effect × Int) :=
  match matrix_dev dt argv (-1) with
  | .fault f => .fault f
  | .ok dev =>
    let duration_ns := drv.zmk_kscan_ec_matrix_max_scan_duration_ns dev % 2 ^ 64
    if duration_ns > 0 then
      match udiv64 1000000000 duration_ns with
      | .fault f => .fault f
      | .ok scan_rate =>
        .ok ([.zmk_kscan_ec_matrix_max_scan_duration_ns dev,
              .shell_info ("Matrix scan rate: " ++ fmt_llu scan_rate ++ "Hz")], 0)
    else
      .ok ([.zmk_kscan_ec_matrix_max_scan_duration_ns dev], 0)

/-- `cmd_matrix_calibration_save`: trace and return value. -/
def cmd_matrix_calibration_save (dt : List device) (drv : Driver) (argv : Argv) :
    Run (List Effect × Int) :=
  match matrix_dev dt argv (-2) with
  | .fault f => .fault f
  | .ok dev =>
    let ret := drv.zmk_kscan_ec_matrix_settings_save_calibration dev
    .ok ([.zmk_kscan_ec_matrix_settings_save_calibration dev] ++
          (if ret < 0 then
            [.shell_print ("Failed to initiate save calibration (" ++ fmt_d ret ++ ")")]
           else []),
         ret)

/-- `cmd_matrix_calibration_load`: trace and return value. -/
def cmd_matrix_calibration_load (dt : List device) (drv : Driver) (argv : Argv) :
    Run (List Effect × Int) :=
  match matrix_dev dt argv (-2) with
  | .fault f => .fault f
  | .ok dev =>
    let ret := drv.zmk_kscan_ec_matrix_settings_load_calibration dev
    .ok ([.zmk_kscan_ec_matrix_settings_load_calibration dev] ++
          (if ret < 0 then
            [.shell_print ("Failed to initiate save calibration (" ++ fmt_d ret ++ ")")]
           else []),
         ret)

/-! ## Command tables -/

/-- The handler functions a table entry can point to. -/
inductive Handler where
  | cmd_matrix_calibration_start
  | cmd_matrix_scan_rate
  | cmd_matrix_calibration_save
  | cmd_matrix_calibration_load
deriving DecidableEq, Repr

/-- The subcommand sets a table entry can point to. -/
inductive Subcmd where
  | sub_matrix_calibration_cmds
  | sub_matrix_cmds
  | sub_ec_matrix_dev
deriving DecidableEq, Repr

/-- `struct shell_static_entry`; `syn` is the member `syntax`, the command
name, and `none` is `NULL` in every member. -/
structure shell_static_entry where
  syn : Option (List Nat)
  help : Option String
  subcmd : Option Subcmd
  handler : Option Handler
deriving DecidableEq, Repr

/-- `SHELL_CMD(syntax, subcmd, help, handler)`. -/
def SHELL_CMD (syn : String) (subcmd : Option Subcmd) (help : String)
    (handler : Option Handler) : shell_static_entry :=
  { syn := some (cstr syn), help := some help, subcmd := subcmd, handler := handler }

/-- `SHELL_SUBCMD_SET_END`: the all-`NULL` entry that ends a static set. -/
def SHELL_SUBCMD_SET_END : shell_static_entry :=
  { syn := none, help := none, subcmd := none, handler := none }

def CMD_HELP_SCAN_RATE : String := "Print EC Scan Rate.\n"
def CMD_HELP_CALIBRATE : String := "EC Calibration Utilities.\n"
def CMD_HELP_CALIBRATION_START : String := "Calibrate the EC Martix.\n"
def CMD_HELP_CALIBRATION_SAVE : String := "Save the EC Martix Calibration To Flash.\n"
def CMD_HELP_CALIBRATION_LOAD : String := "Load the EC Martix Calibration From Flash.\n"

/-- The handler functions the preprocessor leaves in the translation unit:
`cmd_matrix_calibration_start` always, `cmd_matrix_scan_rate` under
`CONFIG_ZMK_KSCAN_EC_MATRIX_SCAN_RATE_CALC`, save and load under
`CONFIG_ZMK_KSCAN_EC_MATRIX_SETTINGS`. -/
def compiled (cfg : Kconfig) : Handler → Bool
  | .cmd_matrix_calibration_start => true
  | .cmd_matrix_scan_rate => cfg.ZMK_KSCAN_EC_MATRIX_SCAN_RATE_CALC
  | .cmd_matrix_calibration_save => cfg.ZMK_KSCAN_EC_MATRIX_SETTINGS
  | .cmd_matrix_calibration_load => cfg.ZMK_KSCAN_EC_MATRIX_SETTINGS

/-- The array behind `sub_matrix_calibration_cmds`; save and load are listed
under `CONFIG_SETTINGS`. -/
def sub_matrix_calibration_cmds (cfg : Kconfig) : List shell_static_entry :=
  [SHELL_CMD "start" none CMD_HELP_CALIBRATION_START (some .cmd_matrix_calibration_start)] ++
  (if cfg.SETTINGS then
    [SHELL_CMD "save" none CMD_HELP_CALIBRATION_SAVE (some .cmd_matrix_calibration_save),
     SHELL_CMD "load" none CMD_HELP_CALIBRATION_LOAD (some .cmd_matrix_calibration_load)]
   else []) ++
  [SHELL_SUBCMD_SET_END]

/-- The array behind `sub_matrix_cmds`. -/
def sub_matrix_cmds (cfg : Kconfig) : List shell_static_entry :=
  [SHELL_CMD "calibration" (some .sub_matrix_calibration_cmds) CMD_HELP_CALIBRATE none] ++
  (if cfg.ZMK_KSCAN_EC_MATRIX_SCAN_RATE_CALC then
    [SHELL_CMD "scan_rate" none CMD_HELP_SCAN_RATE (some .cmd_matrix_scan_rate)]
   else []) ++
  [SHELL_SUBCMD_SET_END]

/-- The commands of a static set: its entries before the first entry whose
name is `NULL`. -/
def commands (set : List shell_static_entry) : List shell_static_entry :=
  set.takeWhile fun e => e.syn.isSome

/-- `cmd_matrix_dev_get(idx, entry)`: `entry` is the caller's record, the
result is the record after the call.  `ARRAY_SIZE(matrix_hdl_list) - 1` does
not wrap, the array holds at least the terminator. -/
def cmd_matrix_dev_get (dt : List device) (idx : Nat) (entry : shell_static_entry) :
    Access shell_static_entry :=
  if idx < ARRAY_SIZE dt - 1 then
    match (matrix_hdl_list dt)[idx]? with
    | none => { reads := [idx], result := .fault .outOfBounds }
    | some e =>
      match e.dev with
      | none => { reads := [idx], result := .fault .nullDeref }
      | some d =>
        { reads := [idx],
          result := .ok { entry with
            syn := some d.name
            handler := none
            subcmd := some .sub_matrix_cmds
            help := some "Select subcommand for matrix property label.\n" } }
  else
    { reads := [], result := .ok { entry with syn := none } }

/-- How the shell walks the dynamic set `sub_ec_matrix_dev`: it asks for
index `idx`, `idx + 1`, ... with one record that it passes to every call, and
stops at the first answer whose name is `NULL`.  The result is the list of
commands seen; `none` when `fuel` calls were not enough. -/
def enumerate (dt : List device) :
    Nat → Nat → shell_static_entry → Option (Access (List shell_static_entry))
  | 0, _, _ => none
  | fuel + 1, idx, entry =>
    let a := cmd_matrix_dev_get dt idx entry
    match a.result with
    | .fault f => some { reads := a.reads, result := .fault f }
    | .ok e =>
      match e.syn with
      | none => some { reads := a.reads, result := .ok [] }
      | some _ =>
        match enumerate dt fuel (idx + 1) e with
        | none => none
        | some r =>
          some { reads := a.reads ++ r.reads,
                 result := match r.result with
                   | .fault f => .fault f
                   | .ok cmds => .ok (e :: cmds) }

/-- The command node `cmd_matrix_dev_get` builds for a device. -/
def device_node (d : device) : shell_static_entry :=
  { syn := some d.name
    help := some "Select subcommand for matrix property label.\n"
    subcmd := some .sub_matrix_cmds
    handler := none }

/-! ## Sample configurations -/

/-- A first configured device, named `adc0`. -/
def adc0 : device := { name := cstr "adc0", handle := 10 }

/-- A second configured device, named `adc1`. -/
def adc1 : device := { name := cstr "adc1", handle := 11 }

/-- A build with the stock UART prompt, settings and scan rate enabled. -/
def cfg_all : Kconfig :=
  { SHELL_PROMPT_UART := "uart:~$ "
    SETTINGS := true
    ZMK_KSCAN_EC_MATRIX_SETTINGS := true
    ZMK_KSCAN_EC_MATRIX_SCAN_RATE_CALC := true }

/-! ## Scripted calibration run -/

/-- Payload of a `CALIBRATION_EV_POSITION_LOW_DETERMINED` event. -/
abbrev LowPayload := Nat × Nat × Nat × Nat

/-- Payload of a `CALIBRATION_EV_POSITION_COMPLETE` event. -/
abbrev CompletePayload := Nat × Nat × Nat × Nat × Nat × Nat

/-- The position events of the low phase, one per payload. -/
def low_events (lows : List LowPayload) : List calibration_event :=
  lows.map fun p => .CALIBRATION_EV_POSITION_LOW_DETERMINED p.1 p.2.1 p.2.2.1 p.2.2.2

/-- The position events of the high phase, one per payload. -/
def high_events (highs : List CompletePayload) : List calibration_event :=
  highs.map fun p =>
    .CALIBRATION_EV_POSITION_COMPLETE p.1 p.2.1 p.2.2.1 p.2.2.2.1 p.2.2.2.2.1 p.2.2.2.2.2

/-- The event sequence of a full calibration: low start, the low position
events, high start, the high position events, complete. -/
def scripted_run (lows : List LowPayload) (highs : List CompletePayload) :
    List calibration_event :=
  [.CALIBRATION_EV_LOW_SAMPLING_START] ++ low_events lows ++
  [.CALIBRATION_EV_HIGH_SAMPLING_START] ++ high_events highs ++
  [.CALIBRATION_EV_COMPLETE]

/-- The prompt string of the busy indicator. -/
def busy_prompt : String := "-"

/-- The instruction printed at the start of the low phase. -/
def low_instruction : String := "Low value sampling begins. Please do not press any keys"

/-- The instruction printed at the start of the high phase. -/
def high_instruction : String :=
  "\nHigh value sampling begins. Please slowly press each key in sequence, releasing once an asterisk appears"

/-- The message printed when calibration is complete. -/
def completion_message : String := "\nCalibration complete!"

/-! ## Command lines -/

/-- The argument vector of a handler reached through
`ec <device> calibration <action>`: its own token is at index 3. -/
def argv_calibration (device_name : List Nat) (action : String) : Argv :=
  { tokens := [cstr "ec", device_name, cstr "calibration", cstr action], base := 3 }

/-- The argument vector of a handler reached through `ec <device> scan_rate`:
its own token is at index 2. -/
def argv_scan_rate (device_name : List Nat) : Argv :=
  { tokens := [cstr "ec", device_name, cstr "scan_rate"], base := 2 }

/-- A driver that rejects calibration with `-5` after the low phase began,
rejects saving with `-5`, loads with `0`, and reports scans of 1 ms. -/
def drv_sample : Driver :=
  { zmk_kscan_ec_matrix_calibrate := fun _ => ([.CALIBRATION_EV_LOW_SAMPLING_START], -5)
    zmk_kscan_ec_matrix_settings_save_calibration := fun _ => -5
    zmk_kscan_ec_matrix_settings_load_calibration := fun _ => 0
    zmk_kscan_ec_matrix_max_scan_duration_ns := fun _ => 1000000 }

/-- A build with `CONFIG_SETTINGS` but without
`CONFIG_ZMK_KSCAN_EC_MATRIX_SETTINGS`. -/
def cfg_settings_only : Kconfig :=
  { SHELL_PROMPT_UART := "uart:~$ "
    SETTINGS := true
    ZMK_KSCAN_EC_MATRIX_SETTINGS := false
    ZMK_KSCAN_EC_MATRIX_SCAN_RATE_CALC := false }

/-- A build with `CONFIG_ZMK_KSCAN_EC_MATRIX_SETTINGS` but without
`CONFIG_SETTINGS`. -/
def cfg_matrix_settings_only : Kconfig :=
  { SHELL_PROMPT_UART := "uart:~$ "
    SETTINGS := false
    ZMK_KSCAN_EC_MATRIX_SETTINGS := true
    ZMK_KSCAN_EC_MATRIX_SCAN_RATE_CALC := false }

/-- Name and handler of every command of a static set. -/
def bindings (set : List shell_static_entry) : List (Option (List Nat) × Option Handler) :=
  (commands set).map fun e => (e.syn, e.handler)

/-! ## Lemmas on `strcmp` and the lookup -/

theorem strcmp_self (a : List Nat) : strcmp a a = 0 := by
  induction a with
  | nil => rfl
  | cons x xs ih => simp [strcmp, ih]

theorem strcmp_eq_zero {a b : List Nat} (ha : IsCStr a) (hb : IsCStr b)
    (h : strcmp a b = 0) : a = b := by
  induction a generalizing b with
  | nil =>
    cases b with
    | nil => rfl
    | cons y ys =>
      have := (hb y (List.mem_cons_self _ _)).1
      simp [strcmp] at h
      omega
  | cons x xs ih =>
    cases b with
    | nil =>
      have := (ha x (List.mem_cons_self _ _)).1
      simp [strcmp] at h
      omega
    | cons y ys =>
      by_cases hxy : x = y
      · subst hxy
        simp [strcmp] at h
        have hxs : IsCStr xs := fun b hb0 => ha b (List.mem_cons_of_mem _ hb0)
        have hys : IsCStr ys := fun b hb0 => hb b (List.mem_cons_of_mem _ hb0)
        rw [ih hxs hys h]
      · simp [strcmp, hxy] at h
        omega

theorem strcmp_eq_zero_iff {a b : List Nat} (ha : IsCStr a) (hb : IsCStr b) :
    strcmp a b = 0 ↔ a = b :=
  ⟨strcmp_eq_zero ha hb, fun h => h ▸ strcmp_self a⟩

theorem matrix_hdl_list_eq (dt : List device) :
    matrix_hdl_list dt = dt.map (fun d => ({ dev := some d } : matrix_hdl)) ++ [{ dev := none }] := by
  simp [matrix_hdl_list, INIT_MACRO, EC_MATRIX_ENTRY]

theorem ARRAY_SIZE_eq (dt : List device) : ARRAY_SIZE dt = dt.length + 1 := by
  simp [ARRAY_SIZE, matrix_hdl_list_eq]

theorem matrix_hdl_list_real (dt : List device) (i : Nat) (hi : i < dt.length) :
    (matrix_hdl_list dt)[i]? = some { dev := some dt[i] } := by
  rw [matrix_hdl_list_eq, List.getElem?_append_left (by simpa using hi)]
  simp [hi]

theorem matrix_hdl_list_terminator (dt : List device) :
    (matrix_hdl_list dt)[dt.length]? = some { dev := none } := by
  rw [matrix_hdl_list_eq, List.getElem?_append_right (by simp)]
  simp

/-- The loop passes over a block of real devices none of which has the
label's name. -/
theorem get_matrix_loop_skip (label : List Nat) (pre : List device) (tail : List matrix_hdl)
    (k : Nat) (hpre : ∀ d ∈ pre, strcmp label d.name ≠ 0) :
    get_matrix_loop label (pre.map (fun d => ({ dev := some d } : matrix_hdl)) ++ tail) k =
      { reads := List.range' k pre.length ++ (get_matrix_loop label tail (k + pre.length)).reads,
        result := (get_matrix_loop label tail (k + pre.length)).result } := by
  induction pre generalizing k with
  | nil => simp
  | cons d ds ih =>
    have hd : strcmp label d.name ≠ 0 := hpre d (List.mem_cons_self _ _)
    have hds : ∀ e ∈ ds, strcmp label e.name ≠ 0 := fun e he => hpre e (List.mem_cons_of_mem _ he)
    have ih1 := ih (k + 1) hds
    rw [List.map_cons, List.cons_append]
    simp only [get_matrix_loop, hd, if_false]
    rw [ih1]
    simp [List.range'_succ, Nat.add_assoc, Nat.add_comm 1]

/-- A label that no device carries: every slot is read, the terminator
included, and the run ends in the `NULL` dereference there. -/
theorem get_matrix_unmatched (dt : List device) (label : List Nat)
    (h : ∀ d ∈ dt, strcmp label d.name ≠ 0) :
    get_matrix dt label =
      { reads := List.range (dt.length + 1), result := .fault .nullDeref } := by
  rw [get_matrix, matrix_hdl_list_eq, get_matrix_loop_skip label dt _ 0 h]
  simp [get_matrix_loop, List.range_eq_range', List.range'_concat]

/-- A label carried by the device at index `i` and by none before it. -/
theorem get_matrix_first_match (dt : List device) (label : List Nat) (i : Nat)
    (hi : i < dt.length) (hmatch : strcmp label dt[i].name = 0)
    (hbefore : ∀ d ∈ dt.take i, strcmp label d.name ≠ 0) :
    get_matrix dt label = { reads := List.range (i + 1), result := .ok i } := by
  have hsplit : dt = dt.take i ++ dt[i] :: dt.drop (i + 1) := by
    rw [← List.drop_eq_getElem_cons hi, List.take_append_drop]
  have hlen : (dt.take i).length = i := by
    rw [List.length_take]; omega
  rw [get_matrix, matrix_hdl_list_eq]
  conv_lhs => rw [hsplit]
  rw [List.map_append, List.append_assoc, get_matrix_loop_skip label _ _ 0 hbefore]
  simp [get_matrix_loop, hmatch, hlen, List.range_eq_range', List.range'_concat]

theorem names_differ_before (dt : List device) (hwf : WellFormed dt) (i : Nat)
    (hi : i < dt.length) : ∀ d ∈ dt.take i, strcmp dt[i].name d.name ≠ 0 := by
  intro d hd h0
  have hdmem : d ∈ dt := List.mem_of_mem_take hd
  have hname : dt[i].name = d.name :=
    strcmp_eq_zero (hwf.1 _ (List.getElem_mem hi)) (hwf.1 _ hdmem) h0
  obtain ⟨j, hj, hjd⟩ := List.getElem_of_mem hd
  have hjlt : j < i := by
    have := List.length_take_le i dt
    rw [List.length_take] at hj; omega
  have hjd2 : dt[j] = d := by
    rw [List.getElem_take] at hjd; exact hjd
  have hnd := hwf.2
  have hi2 : i < (dt.map device.name).length := by simpa using hi
  have hj2 : j < (dt.map device.name).length := by simp; omega
  have heq : (dt.map device.name)[i] = (dt.map device.name)[j] := by simp [hname, hjd2]
  have := (List.Nodup.getElem_inj_iff hnd).1 heq
  omega

/-- Whatever index the loop returns, the slot there holds a device whose name
compares equal to the label. -/
theorem get_matrix_loop_ok (label : List Nat) (arr : List matrix_hdl) (k m : Nat)
    (h : (get_matrix_loop label arr k).result = .ok m) :
    ∃ j d, m = k + j ∧ arr[j]? = some { dev := some d } ∧ strcmp label d.name = 0 := by
  induction arr generalizing k with
  | nil => simp [get_matrix_loop] at h
  | cons e rest ih =>
    obtain ⟨dev⟩ := e
    cases dev with
    | none => simp [get_matrix_loop] at h
    | some d =>
      by_cases hc : strcmp label d.name = 0
      · simp [get_matrix_loop, hc] at h
        exact ⟨0, d, by omega, by simp, hc⟩
      · simp only [get_matrix_loop, hc, if_false] at h
        obtain ⟨j, d2, hm, hj, hs⟩ := ih (k + 1) h
        exact ⟨j + 1, d2, by omega, by simpa using hj, hs⟩

theorem get_matrix_ok_name (dt : List device) (label : List Nat) (i : Nat)
    (hi : i < dt.length) (h : (get_matrix dt label).result = .ok i) :
    strcmp label dt[i].name = 0 := by
  obtain ⟨j, d, hm, hj, hs⟩ := get_matrix_loop_ok label (matrix_hdl_list dt) 0 i h
  have hji : j = i := by omega
  subst hji
  rw [matrix_hdl_list_real dt j hi] at hj
  simp only [Option.some.injEq, matrix_hdl.mk.injEq] at hj
  rw [hj]; exact hs

/-! ## Device lookup -/

/-- C1: in a table of devices with pairwise distinct names, looking up the
name of the device at index `i` reads the slots `0..i` only, never the
terminator at index `dt.length`, and returns slot `i`, which holds that
device; no run of it ends in the assertion.  The comparison is byte-wise: any
other label, in particular one that differs in letter case only, does not
resolve to slot `i`. -/
theorem get_matrix_finds_configured_device (dt : List device) (hwf : WellFormed dt)
    (i : Nat) (hi : i < dt.length) :
    get_matrix dt dt[i].name = { reads := List.range (i + 1), result := .ok i } ∧
    (matrix_hdl_list dt)[i]? = some { dev := some dt[i] } ∧
    dt.length ∉ (get_matrix dt dt[i].name).reads ∧
    (get_matrix dt dt[i].name).result ≠ .fault .assertFailed ∧
    (∀ label : List Nat, IsCStr label → label ≠ dt[i].name →
      (get_matrix dt label).result ≠ .ok i) := by
  have hfound := get_matrix_first_match dt dt[i].name i hi (strcmp_self _)
    (names_differ_before dt hwf i hi)
  refine ⟨hfound, matrix_hdl_list_real dt i hi, ?_, ?_, ?_⟩
  · rw [hfound]
    simp only [List.mem_range]
    omega
  · rw [hfound]
    simp
  · intro label hlabel hne hres
    exact hne (strcmp_eq_zero hlabel (hwf.1 _ (List.getElem_mem hi))
      (get_matrix_ok_name dt label i hi hres))

/-- Instance of C1 on the table of `adc0` and `adc1`: `adc1` resolves to slot
1 after reading slots 0 and 1, and `ADC1` does not resolve to slot 1. -/
theorem get_matrix_finds_configured_device_witness :
    WellFormed [adc0, adc1] ∧
    get_matrix [adc0, adc1] (cstr "adc1") = { reads := [0, 1], result := .ok 1 } ∧
    (get_matrix [adc0, adc1] (cstr "ADC1")).result ≠ .ok 1 :=
  ⟨by decide,
   (get_matrix_finds_configured_device [adc0, adc1] (by decide) 1 (by decide)).1,
   (get_matrix_finds_configured_device [adc0, adc1] (by decide) 1 (by decide)).2.2.2.2
     (cstr "ADC1") (by decide) (by decide)⟩

/-- C2: a label that no configured device carries does not reach the
assertion: the loop also visits the terminator slot, whose `dev` is `NULL`,
and the run ends in the dereference `dev->name` there.  Shown on the empty
table and on the table of `adc0` and `adc1`. -/
theorem get_matrix_unknown_name_reads_terminator :
    get_matrix [] (cstr "adc0") = { reads := [0], result := .fault .nullDeref } ∧
    get_matrix [adc0, adc1] (cstr "adc2") =
      { reads := [0, 1, 2], result := .fault .nullDeref } ∧
    (get_matrix [adc0, adc1] (cstr "adc2")).result ≠ .fault .assertFailed := by
  decide

/-! ## Dynamic device commands -/

theorem cmd_matrix_dev_get_real (dt : List device) (idx : Nat) (entry : shell_static_entry)
    (h : idx < dt.length) :
    cmd_matrix_dev_get dt idx entry = { reads := [idx], result := .ok (device_node dt[idx]) } := by
  simp [cmd_matrix_dev_get, ARRAY_SIZE_eq, h, matrix_hdl_list_real, device_node]

theorem cmd_matrix_dev_get_end (dt : List device) (idx : Nat) (entry : shell_static_entry)
    (h : ¬ idx < dt.length) :
    cmd_matrix_dev_get dt idx entry =
      { reads := [], result := .ok { entry with syn := none } } := by
  simp [cmd_matrix_dev_get, ARRAY_SIZE_eq, h]

theorem enumerate_from (dt : List device) (m : Nat) :
    ∀ (idx : Nat) (entry : shell_static_entry) (extra : Nat), idx + m = dt.length →
      enumerate dt (m + 1 + extra) idx entry =
        some { reads := List.range' idx m, result := .ok ((dt.drop idx).map device_node) } := by
  induction m with
  | zero =>
    intro idx entry extra h
    have hn : ¬ idx < dt.length := by omega
    have hdrop : dt.drop idx = [] := List.drop_eq_nil_of_le (by omega)
    rw [show 0 + 1 + extra = extra + 1 by omega]
    simp [enumerate, cmd_matrix_dev_get_end dt idx entry hn, hdrop]
  | succ m ih =>
    intro idx entry extra h
    have hlt : idx < dt.length := by omega
    rw [show m + 1 + 1 + extra = (m + 1 + extra) + 1 by omega]
    simp only [enumerate, cmd_matrix_dev_get_real dt idx entry hlt]
    rw [show (device_node dt[idx]).syn = some dt[idx].name from rfl]
    simp only [ih (idx + 1) (device_node dt[idx]) extra (by omega)]
    have hd : (dt.drop idx).map device_node =
        device_node dt[idx] :: (dt.drop (idx + 1)).map device_node := by
      rw [List.drop_eq_getElem_cons hlt, List.map_cons]
    rw [hd]
    simp [List.range'_succ]

/-- C3: `cmd_matrix_dev_get` answers index `idx` below the number of devices
with the node of device `idx` (its name, no handler, the subtree
`sub_matrix_cmds`, the fixed help text) after reading slot `idx` only, and
any other index with a `NULL` name without reading the table.  Walking the
indices from 0 to the first `NULL` name, with any number of calls above the
number of devices allowed, therefore ends, yields exactly the nodes of the
devices in declaration order, and reads the slots below the terminator only. -/
theorem cmd_matrix_dev_get_enumerates_devices (dt : List device) (idx : Nat)
    (entry : shell_static_entry) (extra : Nat) :
    cmd_matrix_dev_get dt idx entry =
      (if h : idx < dt.length then
        { reads := [idx],
          result := .ok { syn := some dt[idx].name
                          handler := none
                          subcmd := some .sub_matrix_cmds
                          help := some "Select subcommand for matrix property label.\n" } }
       else
        { reads := [], result := .ok { entry with syn := none } }) ∧
    enumerate dt (dt.length + 1 + extra) 0 entry =
      some { reads := List.range dt.length, result := .ok (dt.map device_node) } ∧
    (dt.map device_node).length = dt.length ∧
    (dt.map fun d => (device_node d).syn) = dt.map fun d => some d.name := by
  refine ⟨?_, ?_, by simp, by simp [device_node]⟩
  · by_cases h : idx < dt.length
    · rw [dif_pos h, cmd_matrix_dev_get_real dt idx entry h]; rfl
    · rw [dif_neg h, cmd_matrix_dev_get_end dt idx entry h]
  · rw [enumerate_from dt dt.length 0 entry extra (by omega)]
    simp [List.range_eq_range']

/-! ## Calibration event sink -/

/-- C8: the effects of `calibrate_cb` depend on the variant of the event
only.  Low start: prompt to the busy indicator, the do-not-press line, a
sleep of 1000 ms.  High start: prompt to the busy indicator, the
press-each-key line.  Either position event, for all payloads: the single
character `*` without newline.  Complete: prompt to the configured idle
prompt, the completion line.  Only low start blocks. -/
theorem calibrate_cb_effects_by_variant (cfg : Kconfig) :
    calibrate_cb cfg .CALIBRATION_EV_LOW_SAMPLING_START =
      [.shell_prompt_change busy_prompt, .shell_print low_instruction, .k_sleep 1000] ∧
    calibrate_cb cfg .CALIBRATION_EV_HIGH_SAMPLING_START =
      [.shell_prompt_change busy_prompt, .shell_print high_instruction] ∧
    (∀ strobe input low_avg noise,
      calibrate_cb cfg (.CALIBRATION_EV_POSITION_LOW_DETERMINED strobe input low_avg noise) =
        [.shell_fprintf "*"]) ∧
    (∀ strobe input low_avg high_avg noise snr,
      calibrate_cb cfg
          (.CALIBRATION_EV_POSITION_COMPLETE strobe input low_avg high_avg noise snr) =
        [.shell_fprintf "*"]) ∧
    calibrate_cb cfg .CALIBRATION_EV_COMPLETE =
      [.shell_prompt_change cfg.SHELL_PROMPT_UART, .shell_print completion_message] ∧
    console_text [.shell_fprintf "*"] = ['*'] ∧
    (∀ ev, blocked_ms (calibrate_cb cfg ev) =
      if ev = .CALIBRATION_EV_LOW_SAMPLING_START then 1000 else 0) := by
  refine ⟨rfl, rfl, fun _ _ _ _ => rfl, fun _ _ _ _ _ _ => rfl, rfl, by decide, ?_⟩
  intro ev
  cases ev <;> simp [calibrate_cb, blocked_ms, K_SECONDS]

theorem deliver_append (cfg : Kconfig) (a b : List calibration_event) :
    deliver cfg (a ++ b) = deliver cfg a ++ deliver cfg b := by
  simp [deliver]

theorem deliver_low_events (cfg : Kconfig) (lows : List LowPayload) :
    deliver cfg (low_events lows) = List.replicate lows.length (.shell_fprintf "*") := by
  induction lows with
  | nil => rfl
  | cons p ps ih =>
    simp only [deliver, low_events] at ih
    simp [deliver, low_events, calibrate_cb, ih, List.replicate_succ]

theorem deliver_high_events (cfg : Kconfig) (highs : List CompletePayload) :
    deliver cfg (high_events highs) = List.replicate highs.length (.shell_fprintf "*") := by
  induction highs with
  | nil => rfl
  | cons p ps ih =>
    simp only [deliver, high_events] at ih
    simp [deliver, high_events, calibrate_cb, ih, List.replicate_succ]

theorem prompt_calls_append (a b : List Effect) :
    prompt_calls (a ++ b) = prompt_calls a ++ prompt_calls b := by
  induction a with
  | nil => rfl
  | cons e es ih => cases e <;> simp [prompt_calls, ih]

theorem prompt_calls_stars (k : Nat) :
    prompt_calls (List.replicate k (.shell_fprintf "*")) = [] := by
  induction k with
  | zero => rfl
  | succ k ih => simp [List.replicate_succ, prompt_calls, ih]

theorem prompt_transitions_stars (p : String) (k : Nat) (tr : List Effect) :
    prompt_transitions p (List.replicate k (.shell_fprintf "*") ++ tr) =
      prompt_transitions p tr := by
  induction k with
  | zero => rfl
  | succ k ih => simp [List.replicate_succ, prompt_transitions, ih]

theorem console_text_append (a b : List Effect) :
    console_text (a ++ b) = console_text a ++ console_text b := by
  simp [console_text]

theorem console_text_stars (k : Nat) :
    console_text (List.replicate k (.shell_fprintf "*")) = List.replicate k '*' := by
  induction k with
  | zero => rfl
  | succ k ih =>
    rw [List.replicate_succ, List.replicate_succ, ← ih]
    rfl

theorem scripted_trace (cfg : Kconfig) (lows : List LowPayload) (highs : List CompletePayload) :
    deliver cfg (scripted_run lows highs) =
      [.shell_prompt_change busy_prompt, .shell_print low_instruction, .k_sleep 1000] ++
      List.replicate lows.length (.shell_fprintf "*") ++
      [.shell_prompt_change busy_prompt, .shell_print high_instruction] ++
      List.replicate highs.length (.shell_fprintf "*") ++
      [.shell_prompt_change cfg.SHELL_PROMPT_UART, .shell_print completion_message] := by
  simp only [scripted_run, deliver_append, deliver_low_events, deliver_high_events]
  rfl

/-- C4, as stated, fails: on the scripted run with no position events the sink
calls `shell_prompt_change` three times, not twice, and when the prompt is
already the busy indicator at the start its value changes once, not twice. -/
theorem scripted_run_prompt_changes_counterexample :
    ¬ (prompt_calls (deliver cfg_all (scripted_run [] []))).length = 2 ∧
    ¬ (prompt_transitions busy_prompt (deliver cfg_all (scripted_run [] []))).length = 2 := by
  decide

/-- C4, amended: on the scripted run with `k` position events per phase the
sink sets the prompt three times (busy at low start, busy again at high
start, idle at complete); the value of the prompt changes exactly twice, to
busy and then to idle, when it is not the busy indicator at the start and the
idle prompt is not the busy indicator.  The trace is: low instruction and
1 s sleep, `k` asterisks, high instruction, `k` asterisks, completion
message; the console receives `2 * k` asterisks, each block of `k` without
any other character in between, and each of the three lines once. -/
theorem scripted_run_rendering (cfg : Kconfig) (k : Nat) (lows : List LowPayload)
    (highs : List CompletePayload) (hl : lows.length = k) (hh : highs.length = k) :
    deliver cfg (scripted_run lows highs) =
      [.shell_prompt_change busy_prompt, .shell_print low_instruction, .k_sleep 1000] ++
      List.replicate k (.shell_fprintf "*") ++
      [.shell_prompt_change busy_prompt, .shell_print high_instruction] ++
      List.replicate k (.shell_fprintf "*") ++
      [.shell_prompt_change cfg.SHELL_PROMPT_UART, .shell_print completion_message] ∧
    prompt_calls (deliver cfg (scripted_run lows highs)) =
      [busy_prompt, busy_prompt, cfg.SHELL_PROMPT_UART] ∧
    (∀ p0 : String, p0 ≠ busy_prompt → cfg.SHELL_PROMPT_UART ≠ busy_prompt →
      prompt_transitions p0 (deliver cfg (scripted_run lows highs)) =
        [busy_prompt, cfg.SHELL_PROMPT_UART]) ∧
    console_text (deliver cfg (scripted_run lows highs)) =
      low_instruction.toList ++ ['\n'] ++ List.replicate k '*' ++
      high_instruction.toList ++ ['\n'] ++ List.replicate k '*' ++
      completion_message.toList ++ ['\n'] ∧
    (console_text (deliver cfg (scripted_run lows highs))).count '*' = 2 * k ∧
    console_text (deliver cfg (low_events lows)) = List.replicate k '*' ∧
    console_text (deliver cfg (high_events highs)) = List.replicate k '*' ∧
    (deliver cfg (scripted_run lows highs)).count (.shell_print low_instruction) = 1 ∧
    (deliver cfg (scripted_run lows highs)).count (.shell_print high_instruction) = 1 ∧
    (deliver cfg (scripted_run lows highs)).count (.shell_print completion_message) = 1 := by
  subst hl
  have htext : console_text (deliver cfg (scripted_run lows highs)) =
      low_instruction.toList ++ ['\n'] ++ List.replicate lows.length '*' ++
      high_instruction.toList ++ ['\n'] ++ List.replicate lows.length '*' ++
      completion_message.toList ++ ['\n'] := by
    rw [scripted_trace, hh]
    simp only [console_text_append, console_text_stars]
    simp [console_text, Effect.text]
  have hlow : List.count '*' low_instruction.toList = 0 := by decide
  have hhigh : List.count '*' high_instruction.toList = 0 := by decide
  have hdone : List.count '*' completion_message.toList = 0 := by decide
  have hne1 : low_instruction ≠ high_instruction := by decide
  have hne2 : low_instruction ≠ completion_message := by decide
  have hne3 : high_instruction ≠ completion_message := by decide
  refine ⟨?_, ?_, ?_, htext, ?_, ?_, ?_, ?_, ?_, ?_⟩
  · rw [scripted_trace, hh]
  · rw [scripted_trace]
    simp [prompt_calls_append, prompt_calls_stars, prompt_calls]
  · intro p0 hp0 hidle
    rw [scripted_trace]
    simp [hidle, Ne.symm hp0, prompt_transitions, prompt_transitions_stars]
  · rw [htext]
    simp only [List.count_append, List.count_replicate, hlow, hhigh, hdone]
    simp
    omega
  · rw [deliver_low_events, console_text_stars]
  · rw [deliver_high_events, console_text_stars, hh]
  · rw [scripted_trace]
    simp [List.count_append, List.count_replicate, List.count_cons, hne1, hne2]
  · rw [scripted_trace]
    simp [List.count_append, List.count_replicate, List.count_cons, hne1.symm, hne3]
  · rw [scripted_trace]
    simp [List.count_append, List.count_replicate, List.count_cons, hne2.symm, hne3.symm]

/-- Instance of the amended C4 with two position events per phase and the
stock UART prompt. -/
theorem scripted_run_rendering_witness :
    [((0, 0, 10, 1) : LowPayload), (0, 1, 12, 2)].length = 2 ∧
    [((0, 0, 10, 90, 1, 7) : CompletePayload), (0, 1, 12, 80, 2, 9)].length = 2 ∧
    prompt_calls (deliver cfg_all (scripted_run [(0, 0, 10, 1), (0, 1, 12, 2)]
      [(0, 0, 10, 90, 1, 7), (0, 1, 12, 80, 2, 9)])) = ["-", "-", "uart:~$ "] ∧
    (console_text (deliver cfg_all (scripted_run [(0, 0, 10, 1), (0, 1, 12, 2)]
      [(0, 0, 10, 90, 1, 7), (0, 1, 12, 80, 2, 9)]))).count '*' = 2 * 2 :=
  ⟨rfl, rfl,
   (scripted_run_rendering cfg_all 2 [(0, 0, 10, 1), (0, 1, 12, 2)]
      [(0, 0, 10, 90, 1, 7), (0, 1, 12, 80, 2, 9)] rfl rfl).2.1,
   (scripted_run_rendering cfg_all 2 [(0, 0, 10, 1), (0, 1, 12, 2)]
      [(0, 0, 10, 90, 1, 7), (0, 1, 12, 80, 2, 9)] rfl rfl).2.2.2.2.1⟩

/-! ## Command handlers -/

theorem matrix_dev_resolves (dt : List device) (hwf : WellFormed dt) (i : Nat)
    (hi : i < dt.length) (argv : Argv) (off : Int) (harg : argv.get off = .ok dt[i].name) :
    matrix_dev dt argv off = .ok dt[i] := by
  have hfound := get_matrix_first_match dt dt[i].name i hi (strcmp_self _)
    (names_differ_before dt hwf i hi)
  simp [matrix_dev, harg, hfound, matrix_hdl_list_real dt i hi]

theorem argv_calibration_device (n : List Nat) (action : String) :
    (argv_calibration n action).get (-2) = .ok n := by
  simp [argv_calibration, Argv.get]

theorem argv_scan_rate_device (n : List Nat) : (argv_scan_rate n).get (-1) = .ok n := by
  simp [argv_scan_rate, Argv.get]

theorem collaborator_calls_append (a b : List Effect) :
    collaborator_calls (a ++ b) = collaborator_calls a ++ collaborator_calls b := by
  simp [collaborator_calls]

theorem collaborator_calls_deliver (cfg : Kconfig) (evs : List calibration_event) :
    collaborator_calls (deliver cfg evs) = [] := by
  induction evs with
  | nil => rfl
  | cons e es ih =>
    have hcons : deliver cfg (e :: es) = calibrate_cb cfg e ++ deliver cfg es := by
      simp [deliver]
    rw [hcons, collaborator_calls_append, ih]
    cases e <;> simp [calibrate_cb, collaborator_calls]

theorem fmt_d_infix (what : String) (r : Int) :
    (fmt_d r).toList <:+: (what ++ fmt_d r ++ ")").toList :=
  ⟨what.toList, [')'], by simp [String.toList, String.data_append]⟩

/-- C5: when the token two places before the handler's own is the name of a
configured device, each of `calibration start`, `save` and `load` calls its
collaborator once, on that device, and returns the collaborator's result
`r`; its own output is one `shell_print` line that contains the decimal
rendering of `r` when `r < 0` and nothing when `r ≥ 0`. -/
theorem handlers_report_collaborator_result (cfg : Kconfig) (dt : List device) (drv : Driver)
    (argv : Argv) (hwf : WellFormed dt) (i : Nat) (hi : i < dt.length)
    (harg : argv.get (-2) = .ok dt[i].name) :
    (∃ tr, cmd_matrix_calibration_start cfg dt drv argv =
        .ok (tr, (drv.zmk_kscan_ec_matrix_calibrate dt[i]).2) ∧
      collaborator_calls tr = [.zmk_kscan_ec_matrix_calibrate dt[i]] ∧
      tr = [.zmk_kscan_ec_matrix_calibrate dt[i]] ++
        deliver cfg (drv.zmk_kscan_ec_matrix_calibrate dt[i]).1 ++
        (if (drv.zmk_kscan_ec_matrix_calibrate dt[i]).2 < 0 then
          [.shell_print ("Failed to start calibration (" ++
            fmt_d (drv.zmk_kscan_ec_matrix_calibrate dt[i]).2 ++ ")")]
         else [])) ∧
    (∃ tr, cmd_matrix_calibration_save dt drv argv =
        .ok (tr, drv.zmk_kscan_ec_matrix_settings_save_calibration dt[i]) ∧
      collaborator_calls tr = [.zmk_kscan_ec_matrix_settings_save_calibration dt[i]] ∧
      tr = [.zmk_kscan_ec_matrix_settings_save_calibration dt[i]] ++
        (if drv.zmk_kscan_ec_matrix_settings_save_calibration dt[i] < 0 then
          [.shell_print ("Failed to initiate save calibration (" ++
            fmt_d (drv.zmk_kscan_ec_matrix_settings_save_calibration dt[i]) ++ ")")]
         else [])) ∧
    (∃ tr, cmd_matrix_calibration_load dt drv argv =
        .ok (tr, drv.zmk_kscan_ec_matrix_settings_load_calibration dt[i]) ∧
      collaborator_calls tr = [.zmk_kscan_ec_matrix_settings_load_calibration dt[i]] ∧
      tr = [.zmk_kscan_ec_matrix_settings_load_calibration dt[i]] ++
        (if drv.zmk_kscan_ec_matrix_settings_load_calibration dt[i] < 0 then
          [.shell_print ("Failed to initiate save calibration (" ++
            fmt_d (drv.zmk_kscan_ec_matrix_settings_load_calibration dt[i]) ++ ")")]
         else [])) ∧
    (∀ (what : String) (r : Int), (fmt_d r).toList <:+: (what ++ fmt_d r ++ ")").toList) ∧
    (∀ r : Int, r < 0 → r ≠ 0) := by
  have hdev := matrix_dev_resolves dt hwf i hi argv (-2) harg
  refine ⟨⟨_, ?_, ?_, rfl⟩, ⟨_, ?_, ?_, rfl⟩, ⟨_, ?_, ?_, rfl⟩, fmt_d_infix, fun r hr => by omega⟩
  · simp only [cmd_matrix_calibration_start, hdev]
  · rw [collaborator_calls_append, collaborator_calls_append, collaborator_calls_deliver]
    split <;> simp [collaborator_calls]
  · simp only [cmd_matrix_calibration_save, hdev]
  · rw [collaborator_calls_append]
    split <;> simp [collaborator_calls]
  · simp only [cmd_matrix_calibration_load, hdev]
  · rw [collaborator_calls_append]
    split <;> simp [collaborator_calls]

/-- Instance of C5 on the single device `adc0`: calibration rejected with
`-5` prints a line containing `-5` and returns `-5`; loading with result `0`
returns `0` and prints nothing. -/
theorem handlers_report_collaborator_result_witness :
    WellFormed [adc0] ∧ 0 < [adc0].length ∧
    (argv_calibration (cstr "adc0") "start").get (-2) = .ok (cstr "adc0") ∧
    cmd_matrix_calibration_start cfg_all [adc0] drv_sample
        (argv_calibration (cstr "adc0") "start") =
      .ok ([.zmk_kscan_ec_matrix_calibrate adc0,
            .shell_prompt_change "-",
            .shell_print "Low value sampling begins. Please do not press any keys",
            .k_sleep 1000,
            .shell_print "Failed to start calibration (-5)"], -5) ∧
    cmd_matrix_calibration_load [adc0] drv_sample (argv_calibration (cstr "adc0") "load") =
      .ok ([.zmk_kscan_ec_matrix_settings_load_calibration adc0], 0) := by
  obtain ⟨⟨tr1, h1, -, ht1⟩, -, -, -, -⟩ :=
    handlers_report_collaborator_result cfg_all [adc0] drv_sample
      (argv_calibration (cstr "adc0") "start") (by decide) 0 (by decide) (by decide)
  obtain ⟨-, -, ⟨tr3, h3, -, ht3⟩, -, -⟩ :=
    handlers_report_collaborator_result cfg_all [adc0] drv_sample
      (argv_calibration (cstr "adc0") "load") (by decide) 0 (by decide) (by decide)
  refine ⟨by decide, by decide, by decide, ?_, ?_⟩
  · rw [h1, ht1]; decide
  · rw [h3, ht3]; decide

/-- C6: when the token before the handler's own is the name of a configured
device whose scan duration is the 64-bit value `d`, `cmd_matrix_scan_rate`
queries that device once and returns 0; for `d > 0` it prints the one line
with `1000000000 / d` (the division is defined and truncates: 1000 for
`d = 1000000`, 0 for `d > 1000000000`), for `d = 0` it prints nothing. -/
theorem cmd_matrix_scan_rate_reports_rate (dt : List device) (drv : Driver) (argv : Argv)
    (hwf : WellFormed dt) (i : Nat) (hi : i < dt.length)
    (harg : argv.get (-1) = .ok dt[i].name) (d : Nat)
    (hd : drv.zmk_kscan_ec_matrix_max_scan_duration_ns dt[i] = d) (h64 : d < 2 ^ 64) :
    cmd_matrix_scan_rate dt drv argv =
      .ok ([.zmk_kscan_ec_matrix_max_scan_duration_ns dt[i]] ++
        (if 0 < d then
          [.shell_info ("Matrix scan rate: " ++ fmt_llu (1000000000 / d) ++ "Hz")]
         else []), 0) ∧
    (0 < d → udiv64 1000000000 d = .ok (1000000000 / d)) ∧
    (d = 1000000 → 1000000000 / d = 1000) ∧
    (1000000000 < d → 1000000000 / d = 0) ∧
    (d = 0 → cmd_matrix_scan_rate dt drv argv =
      .ok ([.zmk_kscan_ec_matrix_max_scan_duration_ns dt[i]], 0)) ∧
    console_text [.zmk_kscan_ec_matrix_max_scan_duration_ns dt[i]] = [] := by
  have hdev := matrix_dev_resolves dt hwf i hi argv (-1) harg
  have hmod : d % 2 ^ 64 = d := Nat.mod_eq_of_lt h64
  have hdiv : 0 < d → udiv64 1000000000 d = .ok (1000000000 / d) := by
    intro hpos
    have hne : d ≠ 0 := by omega
    unfold udiv64
    rw [hmod, Nat.mod_eq_of_lt (by norm_num : 1000000000 < 2 ^ 64), if_neg hne]
  refine ⟨?_, hdiv, ?_, ?_, ?_, rfl⟩
  · by_cases hpos : 0 < d
    · simp only [cmd_matrix_scan_rate, hdev, hd, hmod, gt_iff_lt, hpos, if_true, hdiv hpos]
      rfl
    · simp only [cmd_matrix_scan_rate, hdev, hd, hmod, gt_iff_lt, hpos, if_false]
      rfl
  · intro h; subst h; rfl
  · intro h; exact Nat.div_eq_of_lt h
  · intro h
    subst h
    simp [cmd_matrix_scan_rate, hdev, hd]

/-- Instance of C6 on `adc0` with a scan duration of 1000000 ns: the line
reports 1000 Hz and the status is 0. -/
theorem cmd_matrix_scan_rate_reports_rate_witness :
    WellFormed [adc0] ∧ 0 < [adc0].length ∧
    (argv_scan_rate (cstr "adc0")).get (-1) = .ok (cstr "adc0") ∧
    drv_sample.zmk_kscan_ec_matrix_max_scan_duration_ns adc0 = 1000000 ∧
    1000000 < 2 ^ 64 ∧
    cmd_matrix_scan_rate [adc0] drv_sample (argv_scan_rate (cstr "adc0")) =
      .ok ([.zmk_kscan_ec_matrix_max_scan_duration_ns adc0,
            .shell_info "Matrix scan rate: 1000Hz"], 0) := by
  refine ⟨by decide, by decide, by decide, rfl, by decide, ?_⟩
  rw [(cmd_matrix_scan_rate_reports_rate [adc0] drv_sample (argv_scan_rate (cstr "adc0"))
    (by decide) 0 (by decide) (by decide) 1000000 rfl (by decide)).1]
  decide

/-- C7: for a configured device with name `n`, the handlers reached through
`ec n calibration start`, `ec n calibration save` and `ec n calibration load`
call their collaborator on exactly that device, and so does the handler
reached through `ec n scan_rate` with the scan-duration query.  The name
that `cmd_matrix_dev_get` advertises for index `i` resolves through
`get_matrix` to slot `i`. -/
theorem handlers_reach_named_device (cfg : Kconfig) (dt : List device) (drv : Driver)
    (hwf : WellFormed dt) (i : Nat) (hi : i < dt.length) :
    (∃ tr r, cmd_matrix_calibration_start cfg dt drv (argv_calibration dt[i].name "start") =
        .ok (tr, r) ∧
      collaborator_calls tr = [.zmk_kscan_ec_matrix_calibrate dt[i]]) ∧
    (∃ tr r, cmd_matrix_calibration_save dt drv (argv_calibration dt[i].name "save") =
        .ok (tr, r) ∧
      collaborator_calls tr = [.zmk_kscan_ec_matrix_settings_save_calibration dt[i]]) ∧
    (∃ tr r, cmd_matrix_calibration_load dt drv (argv_calibration dt[i].name "load") =
        .ok (tr, r) ∧
      collaborator_calls tr = [.zmk_kscan_ec_matrix_settings_load_calibration dt[i]]) ∧
    (∃ tr r, cmd_matrix_scan_rate dt drv (argv_scan_rate dt[i].name) = .ok (tr, r) ∧
      collaborator_calls tr = [.zmk_kscan_ec_matrix_max_scan_duration_ns dt[i]]) ∧
    (∀ entry, ∃ node, (cmd_matrix_dev_get dt i entry).result = .ok node ∧
      node.syn = some dt[i].name ∧
      (get_matrix dt dt[i].name).result = .ok i) := by
  have hfound := get_matrix_first_match dt dt[i].name i hi (strcmp_self _)
    (names_differ_before dt hwf i hi)
  have hcal : ∀ action, matrix_dev dt (argv_calibration dt[i].name action) (-2) = .ok dt[i] :=
    fun action => matrix_dev_resolves dt hwf i hi _ (-2) (argv_calibration_device _ action)
  have hscan : matrix_dev dt (argv_scan_rate dt[i].name) (-1) = .ok dt[i] :=
    matrix_dev_resolves dt hwf i hi _ (-1) (argv_scan_rate_device _)
  refine ⟨?_, ?_, ?_, ?_, ?_⟩
  · simp only [cmd_matrix_calibration_start, hcal]
    refine ⟨_, _, rfl, ?_⟩
    rw [collaborator_calls_append, collaborator_calls_append, collaborator_calls_deliver]
    split <;> simp [collaborator_calls]
  · simp only [cmd_matrix_calibration_save, hcal]
    refine ⟨_, _, rfl, ?_⟩
    rw [collaborator_calls_append]
    split <;> simp [collaborator_calls]
  · simp only [cmd_matrix_calibration_load, hcal]
    refine ⟨_, _, rfl, ?_⟩
    rw [collaborator_calls_append]
    split <;> simp [collaborator_calls]
  · by_cases hpos : drv.zmk_kscan_ec_matrix_max_scan_duration_ns dt[i] % 2 ^ 64 > 0
    · have hne : drv.zmk_kscan_ec_matrix_max_scan_duration_ns dt[i] % 2 ^ 64 ≠ 0 := by omega
      simp only [cmd_matrix_scan_rate, hscan, hpos, if_true, udiv64, Nat.mod_mod, hne,
        if_false]
      exact ⟨_, _, rfl, by simp [collaborator_calls]⟩
    · simp only [cmd_matrix_scan_rate, hscan, hpos, if_false]
      exact ⟨_, _, rfl, by simp [collaborator_calls]⟩
  · intro entry
    refine ⟨device_node dt[i], ?_, rfl, ?_⟩
    · rw [cmd_matrix_dev_get_real dt i entry hi]
    · rw [hfound]

/-- Instance of C7 on the table of `adc0` and `adc1`, device `adc1`. -/
theorem handlers_reach_named_device_witness :
    WellFormed [adc0, adc1] ∧ 1 < [adc0, adc1].length ∧
    ∃ tr r, cmd_matrix_calibration_save [adc0, adc1] drv_sample
        (argv_calibration (cstr "adc1") "save") = .ok (tr, r) ∧
      collaborator_calls tr = [.zmk_kscan_ec_matrix_settings_save_calibration adc1] :=
  ⟨by decide, by decide,
   (handlers_reach_named_device cfg_all [adc0, adc1] drv_sample (by decide) 1 (by decide)).2.1⟩

/-! ## Prompt across a calibration -/

theorem prompt_after_append (p : String) (a b : List Effect) :
    prompt_after p (a ++ b) = prompt_after (prompt_after p a) b := by
  induction a generalizing p with
  | nil => rfl
  | cons e es ih => cases e <;> simp [prompt_after, ih]

theorem deliver_cons (cfg : Kconfig) (e : calibration_event) (es : List calibration_event) :
    deliver cfg (e :: es) = calibrate_cb cfg e ++ deliver cfg es := by
  simp [deliver]

theorem prompt_after_quiet_event (cfg : Kconfig) (p : String) (e : calibration_event)
    (h : sets_prompt e = false) : prompt_after p (calibrate_cb cfg e) = p := by
  cases e <;> simp [sets_prompt] at h <;> rfl

theorem prompt_after_setting_event (cfg : Kconfig) (p : String) (e : calibration_event)
    (h : sets_prompt e = true) :
    prompt_after p (calibrate_cb cfg e) =
      if e = .CALIBRATION_EV_COMPLETE then cfg.SHELL_PROMPT_UART else busy_prompt := by
  cases e <;> simp [sets_prompt] at h <;> simp [calibrate_cb, prompt_after, busy_prompt]

theorem prompt_after_quiet (cfg : Kconfig) (p : String) (evs : List calibration_event)
    (h : ∀ e ∈ evs, sets_prompt e = false) : prompt_after p (deliver cfg evs) = p := by
  induction evs with
  | nil => rfl
  | cons e es ih =>
    rw [deliver_cons, prompt_after_append,
      prompt_after_quiet_event cfg p e (h e (List.mem_cons_self _ _))]
    exact ih fun x hx => h x (List.mem_cons_of_mem _ hx)

theorem prompt_after_diagnostic (p : String) (r : Int) (msg : String) :
    prompt_after p (if r < 0 then [Effect.shell_print msg] else []) = p := by
  split <;> rfl

/-- C10: `cmd_matrix_calibration_start` adds no prompt change of its own.
For a configured device, whatever events `evs` the driver delivers and
whatever result `r` it returns, the prompt at return is the prompt after the
sink handled `evs`: the initial prompt when no event of `evs` is a sampling
start or complete, and otherwise the idle prompt when the last such event is
complete and the busy indicator when it is a sampling start, also for
`r < 0`.  With no event and `r < 0` the trace is the driver call followed by
the one diagnostic line. -/
theorem calibration_start_prompt_follows_events (cfg : Kconfig) (dt : List device)
    (drv : Driver) (argv : Argv) (hwf : WellFormed dt) (i : Nat) (hi : i < dt.length)
    (harg : argv.get (-2) = .ok dt[i].name) (p0 : String) :
    ∃ tr, cmd_matrix_calibration_start cfg dt drv argv =
        .ok (tr, (drv.zmk_kscan_ec_matrix_calibrate dt[i]).2) ∧
      prompt_after p0 tr =
        prompt_after p0 (deliver cfg (drv.zmk_kscan_ec_matrix_calibrate dt[i]).1) ∧
      ((∀ e ∈ (drv.zmk_kscan_ec_matrix_calibrate dt[i]).1, sets_prompt e = false) →
        prompt_after p0 tr = p0) ∧
      (∀ pre e post, (drv.zmk_kscan_ec_matrix_calibrate dt[i]).1 = pre ++ e :: post →
        sets_prompt e = true → (∀ x ∈ post, sets_prompt x = false) →
        prompt_after p0 tr =
          if e = .CALIBRATION_EV_COMPLETE then cfg.SHELL_PROMPT_UART else busy_prompt) ∧
      ((drv.zmk_kscan_ec_matrix_calibrate dt[i]).1 = [] →
        (drv.zmk_kscan_ec_matrix_calibrate dt[i]).2 < 0 →
        tr = [.zmk_kscan_ec_matrix_calibrate dt[i],
              .shell_print ("Failed to start calibration (" ++
                fmt_d (drv.zmk_kscan_ec_matrix_calibrate dt[i]).2 ++ ")")]) := by
  have hdev := matrix_dev_resolves dt hwf i hi argv (-2) harg
  have hprompt : ∀ evs : List calibration_event, ∀ (r : Int) (msg : String),
      prompt_after p0 ([Effect.zmk_kscan_ec_matrix_calibrate dt[i]] ++ deliver cfg evs ++
        (if r < 0 then [Effect.shell_print msg] else [])) = prompt_after p0 (deliver cfg evs) := by
    intro evs r msg
    rw [prompt_after_append, prompt_after_diagnostic, prompt_after_append]
    rfl
  simp only [cmd_matrix_calibration_start, hdev]
  refine ⟨_, rfl, hprompt _ _ _, ?_, ?_, ?_⟩
  · intro hq
    rw [hprompt, prompt_after_quiet cfg p0 _ hq]
  · intro pre e post hsplit hset hpost
    rw [hprompt, hsplit, deliver_append, deliver_cons, prompt_after_append, prompt_after_append,
      prompt_after_quiet cfg _ post hpost, prompt_after_setting_event cfg _ e hset]
  · intro hnil hneg
    rw [hnil, if_pos hneg]
    rfl

/-- Instance of C10 on `adc0`: the driver delivers the low sampling start and
then fails with `-5`; the handler returns `-5` with the prompt at the busy
indicator. -/
theorem calibration_start_prompt_follows_events_witness :
    WellFormed [adc0] ∧ 0 < [adc0].length ∧
    (argv_calibration (cstr "adc0") "start").get (-2) = .ok (cstr "adc0") ∧
    ∃ tr, cmd_matrix_calibration_start cfg_all [adc0] drv_sample
        (argv_calibration (cstr "adc0") "start") = .ok (tr, -5) ∧
      prompt_after "uart:~$ " tr = "-" := by
  obtain ⟨tr, h1, -, -, h2, -⟩ :=
    calibration_start_prompt_follows_events cfg_all [adc0] drv_sample
      (argv_calibration (cstr "adc0") "start") (by decide) 0 (by decide) (by decide) "uart:~$ "
  refine ⟨by decide, by decide, by decide, tr, h1, ?_⟩
  exact h2 [] .CALIBRATION_EV_LOW_SAMPLING_START [] rfl rfl (by simp)

/-! ## Static command tables -/

/-- When `CONFIG_SETTINGS` and `CONFIG_ZMK_KSCAN_EC_MATRIX_SETTINGS` have the
same value, the tables list `start`, then `save` and `load` exactly with
settings support, `calibration`, then `scan_rate` exactly with scan-rate
support, and every handler listed is compiled. -/
theorem command_tables_when_guards_agree (cfg : Kconfig)
    (h : cfg.SETTINGS = cfg.ZMK_KSCAN_EC_MATRIX_SETTINGS) :
    bindings (sub_matrix_calibration_cmds cfg) =
      (some (cstr "start"), some Handler.cmd_matrix_calibration_start) ::
      (if cfg.ZMK_KSCAN_EC_MATRIX_SETTINGS then
        [(some (cstr "save"), some Handler.cmd_matrix_calibration_save),
         (some (cstr "load"), some Handler.cmd_matrix_calibration_load)]
       else []) ∧
    bindings (sub_matrix_cmds cfg) =
      (some (cstr "calibration"), none) ::
      (if cfg.ZMK_KSCAN_EC_MATRIX_SCAN_RATE_CALC then
        [(some (cstr "scan_rate"), some Handler.cmd_matrix_scan_rate)]
       else []) ∧
    (∀ e ∈ commands (sub_matrix_calibration_cmds cfg) ++ commands (sub_matrix_cmds cfg),
      ∀ f, e.handler = some f → compiled cfg f = true) := by
  obtain ⟨prompt, s, ms, sr⟩ := cfg
  simp only at h
  subst h
  cases s <;> cases sr <;>
    simp [bindings, commands, sub_matrix_calibration_cmds, sub_matrix_cmds, SHELL_CMD,
      SHELL_SUBCMD_SET_END, compiled, List.takeWhile]

/-- C9: in the build with `CONFIG_SETTINGS` set and
`CONFIG_ZMK_KSCAN_EC_MATRIX_SETTINGS` unset the `calibration` table lists
`save` and `load` bound to handlers that are not compiled; in the build with
the two options the other way round both handlers are compiled and the table
lists `start` only. -/
theorem calibration_table_guard_mismatch :
    bindings (sub_matrix_calibration_cmds cfg_settings_only) =
      [(some (cstr "start"), some .cmd_matrix_calibration_start),
       (some (cstr "save"), some .cmd_matrix_calibration_save),
       (some (cstr "load"), some .cmd_matrix_calibration_load)] ∧
    compiled cfg_settings_only .cmd_matrix_calibration_save = false ∧
    compiled cfg_settings_only .cmd_matrix_calibration_load = false ∧
    bindings (sub_matrix_calibration_cmds cfg_matrix_settings_only) =
      [(some (cstr "start"), some .cmd_matrix_calibration_start)] ∧
    compiled cfg_matrix_settings_only .cmd_matrix_calibration_save = true ∧
    compiled cfg_matrix_settings_only .cmd_matrix_calibration_load = true := by
  decide

end EcMatrixShell
